import Mathlib

/-!
Verification development for the whatpkgs dependency-closure tool.

The definitions below are a shallow embedding of src/whatpkgs.py. The engine
functions imported there from the depchase package (recurse_package_deps,
recurse_self_host, resolve_ambiguity, get_pkg_by_name, get_srpm_for_package)
are not part of the source tree; those definitions are modelled from the
specification and marked as such in their doc comments. Everything else is
translated directly from whatpkgs.py.
-/

/-- NEVRA-style package identifier (spec section 3). -/
structure PackageId where
  name : String
  epoch : Nat
  version : String
  release : String
  arch : String
deriving DecidableEq

/-- Package metadata record: identifier, mandatory requirements, weak
(recommended) requirements, provided capabilities, and the name of the
source package it was built from (spec section 3). -/
structure PackageRecord where
  id : PackageId
  requires : List String
  recommends : List String
  provides : List String
  sourceName : String
deriving DecidableEq

/-- In-memory repository metadata: the full list of loaded package records.
Stands for the dnf sack/query object built by get_query_object. -/
structure Provider where
  pkgs : List PackageRecord
deriving DecidableEq

/-- One arch tier of a capability query:
query.filter(provides=cap, arch=arch) in whatpkgs.py. -/
def provAt (q : Provider) (cap : String) (arch : String) : List PackageRecord :=
  q.pkgs.filter (fun r => r.id.arch == arch && r.provides.contains cap)

/-- Capability lookup of the debugprovides command, whatpkgs.py lines 437-446:
try the primary arch, then (when the primary tier is empty and a multiarch
exists) the multiarch tier, then (when still empty) the noarch tier. -/
def debugLookup (q : Provider) (cap : String) (primaryArch : String)
    (multiArch : Option String) : List PackageRecord :=
  let required1 := provAt q cap primaryArch
  let required2 :=
    if required1 = [] then
      match multiArch with
      | some m => provAt q cap m
      | none => required1
    else required1
  if required2 = [] then provAt q cap "noarch" else required2

/-- Claim C2: for every capability lookup, providers are searched at the
primary architecture first; the multiarch tier is queried only when the
primary tier is empty and a secondary multiarch exists; the noarch tier is
queried only when the earlier applicable tiers are all empty; the result is
always exactly one tier's candidate list, never a mixture. -/
theorem debugprovides_arch_fallback (q : Provider) (cap primaryArch : String)
    (multiArch : Option String) :
    (provAt q cap primaryArch ≠ [] →
      debugLookup q cap primaryArch multiArch = provAt q cap primaryArch) ∧
    (∀ m, multiArch = some m → provAt q cap primaryArch = [] →
      provAt q cap m ≠ [] →
      debugLookup q cap primaryArch multiArch = provAt q cap m) ∧
    (provAt q cap primaryArch = [] →
      (∀ m, multiArch = some m → provAt q cap m = []) →
      debugLookup q cap primaryArch multiArch = provAt q cap "noarch") := by
  refine ⟨?_, ?_, ?_⟩
  · intro h
    simp [debugLookup, h]
  · intro m hm h1 h2
    subst hm
    simp [debugLookup, h1, h2]
  · intro h1 h2
    cases hm : multiArch with
    | none => simp [debugLookup, h1]
    | some m => simp [debugLookup, h1, h2 m hm]

/-- One entry of a dependency closure: the dictionary key (package name), the
package record stored under it, and the discovery-order index recorded at
insertion (spec section 3). -/
structure ClosureEntry where
  key : String
  record : PackageRecord
  idx : Nat
deriving DecidableEq

/-- A dependency closure: name-keyed mapping in insertion order. -/
abbrev DependencyClosure := List ClosureEntry

def keysOf (c : DependencyClosure) : List String :=
  c.map ClosureEntry.key

def hasKey (c : DependencyClosure) (n : String) : Bool :=
  c.any (fun e => e.key == n)

/-- Insert a package under its name with the next discovery-order index. -/
def insertEntry (c : DependencyClosure) (pkg : PackageRecord) : DependencyClosure :=
  c ++ [⟨pkg.id.name, pkg, c.length⟩]

/-- A requirement with several viable candidates and no applicable
disambiguation policy (spec section 3). -/
structure AmbiguityRecord where
  requirement : String
  requiring : String
  candidates : List PackageId
deriving DecidableEq

/-- Policy inputs of one run, threaded through resolution and traversal. -/
structure ResolverConfig where
  primaryArch : String
  multiArch : Option String
  hints : List String
  filters : List String
  whatreqs : List String
  pickFirst : Bool
  recommends : Bool
deriving DecidableEq

/-- Outcome of resolving one requirement (spec section 4.1). -/
inductive Resolution where
  | filteredOut
  | unresolved
  | single (c : PackageRecord)
  | ambiguous (cands : List PackageRecord)
deriving DecidableEq

/-- Modelled from the spec: find_providers of the MetadataProvider contract
(sections 4.1 and 6; depchase.queries is not under src/). Capability lookup
with the same arch fallback as debugLookup. -/
def find_providers (q : Provider) (cap : String) (primaryArch : String)
    (multiArch : Option String) : List PackageRecord :=
  let tier1 := provAt q cap primaryArch
  if tier1 = [] then
    match multiArch with
    | some m =>
      let tier2 := provAt q cap m
      if tier2 = [] then provAt q cap "noarch" else tier2
    | none => provAt q cap "noarch"
  else tier1

/-- Modelled from the spec: RequirementResolver (section 4.1; the resolver
lives in depchase.process, not under src/). Arch-fallback candidate query,
then filter removal, then the empty/single/hint/pick-first/ambiguous
decision, in the order the spec gives. -/
def resolveRequirement (q : Provider) (cfg : ResolverConfig) (cap : String) :
    Resolution :=
  let cands := find_providers q cap cfg.primaryArch cfg.multiArch
  let kept := cands.filter (fun r => !cfg.filters.contains r.id.name)
  match kept with
  | [] => if cands = [] then Resolution.unresolved else Resolution.filteredOut
  | [c] => Resolution.single c
  | c :: _ :: _ =>
    match kept.filter (fun r => cfg.hints.contains r.id.name) with
    | [h] => Resolution.single h
    | _ => if cfg.pickFirst then Resolution.single c else Resolution.ambiguous kept

/-- The requirement list traversed for one package: mandatory requirements,
plus the weak requirements exactly when the recommends flag is on
(spec section 4.2). -/
def reqsOf (cfg : ResolverConfig) (pkg : PackageRecord) : List String :=
  pkg.requires ++ (if cfg.recommends then pkg.recommends else [])

/-- Work item of the traversal engine: visit a package, or process the
pending requirement list of an already-inserted package. -/
inductive EngineCall where
  | visit (pkg : PackageRecord)
  | pending (pkg : PackageRecord) (reqs : List String)
deriving DecidableEq

/-- Modelled from the spec: ClosureEngine (section 4.2; recurse_package_deps
lives in depchase.process, not under src/). Fuel-indexed depth-first
traversal: a package already keyed in the closure is never re-entered; on
first visit it is inserted with the next discovery index and its requirement
list is processed in order, recursing into Single resolutions and appending
an AmbiguityRecord for Ambiguous ones; Unresolved and filtered requirements
are skipped. -/
def engine (q : Provider) (cfg : ResolverConfig) :
    Nat → EngineCall → DependencyClosure × List AmbiguityRecord →
    DependencyClosure × List AmbiguityRecord
  | 0, _, st => st
  | Nat.succ fuel, EngineCall.visit pkg, st =>
    if hasKey st.1 pkg.id.name then st
    else engine q cfg fuel (EngineCall.pending pkg (reqsOf cfg pkg))
      (insertEntry st.1 pkg, st.2)
  | Nat.succ _, EngineCall.pending _ [], st => st
  | Nat.succ fuel, EngineCall.pending pkg (cap :: rest), st =>
    let st2 :=
      match resolveRequirement q cfg cap with
      | Resolution.single c => engine q cfg fuel (EngineCall.visit c) st
      | Resolution.ambiguous cands =>
        (st.1, st.2 ++ [⟨cap, pkg.id.name, cands.map PackageRecord.id⟩])
      | _ => st
    engine q cfg fuel (EngineCall.pending pkg rest) st2

/-- Modelled from the spec: recurse_package_deps (depchase.process, not under
src/), the entry point of the ClosureEngine on a seed package. -/
def recurse_package_deps (q : Provider) (cfg : ResolverConfig) (fuel : Nat)
    (pkg : PackageRecord) (st : DependencyClosure × List AmbiguityRecord) :
    DependencyClosure × List AmbiguityRecord :=
  engine q cfg fuel (EngineCall.visit pkg) st

/-- Modelled from the spec: resolve_ambiguity (section 4.3; depchase.process
is not under src/). True, meaning resolved and droppable, iff at least one
candidate PackageId is already a key of the closure. -/
def resolve_ambiguity (deps : DependencyClosure) (x : AmbiguityRecord) : Bool :=
  x.candidates.any (fun c => hasKey deps c.name)

/-- The post-traversal reconciliation pass of whatpkgs.py lines 219-220 and
376-377: keep exactly the records not resolved by other entries. -/
def reconcileAmbiguities (deps : DependencyClosure)
    (ambiguities : List AmbiguityRecord) : List AmbiguityRecord :=
  ambiguities.filter (fun x => !resolve_ambiguity deps x)

/-- Modelled from the spec: get_pkg_by_name, the find(name, arch) lookup of
the MetadataProvider contract (section 6; depchase.queries is not under
src/). -/
def get_pkg_by_name (q : Provider) (name : String) (arch : Option String) :
    Option PackageRecord :=
  (q.pkgs.filter (fun r =>
    r.id.name == name &&
      match arch with
      | some a => r.id.arch == a
      | none => true)).head?

/-- A caller-named seed argument after split_pkgname: package name plus the
optional explicit arch suffix. -/
structure SeedArg where
  name : String
  arch : Option String
deriving DecidableEq

/-- The two conditions in src/whatpkgs.py that terminate the process with
exit code 1. -/
inductive ExitReason where
  | dnfTooOld
  | packageNotFound (name : String)
deriving DecidableEq

/-- Ambient DNF library capability: whether repo objects support the 2.x
_id attribute assigned in _setup_static_repo. -/
structure DnfEnv where
  supportsRepoId : Bool
deriving DecidableEq

/-- Static repository setup, whatpkgs.py lines 31-46: assigning repo._id
raises AttributeError on DNF 1.x, which prints a diagnostic and exits 1. -/
def setup_static_repo (env : DnfEnv) : Except ExitReason Unit :=
  if env.supportsRepoId then Except.ok () else Except.error ExitReason.dnfTooOld

/-- Repository setup, whatpkgs.py setup_repo: static repositories (and hence
the DNF 2.x check) are used exactly when the system repositories are not. -/
def setupRepos (env : DnfEnv) (useSystem : Bool) : Except ExitReason Unit :=
  if useSystem then Except.ok () else setup_static_repo env

/-- One iteration of the neededby seed loop, whatpkgs.py lines 197-220:
skip a filtered seed, look the seed up (missing seed is fatal), reset the
accumulators unless merging, traverse, then reconcile the ambiguity list
against the closure. -/
def neededbySeedStep (q : Provider) (cfg : ResolverConfig) (merge : Bool)
    (fuel : Nat) (st : DependencyClosure × List AmbiguityRecord) (s : SeedArg) :
    Except ExitReason (DependencyClosure × List AmbiguityRecord) :=
  if cfg.filters.contains s.name then Except.ok st
  else
    match get_pkg_by_name q s.name s.arch with
    | none => Except.error (ExitReason.packageNotFound s.name)
    | some pkg =>
      let st0 := if merge then st else ([], [])
      let st1 := recurse_package_deps q cfg fuel pkg st0
      Except.ok (st1.1, reconcileAmbiguities st1.1 st1.2)

/-- The neededby seed loop over all caller-named packages. -/
def neededbyLoop (q : Provider) (cfg : ResolverConfig) (merge : Bool)
    (fuel : Nat) :
    List SeedArg → DependencyClosure × List AmbiguityRecord →
    Except ExitReason (DependencyClosure × List AmbiguityRecord)
  | [], st => Except.ok st
  | s :: rest, st =>
    match neededbySeedStep q cfg merge fuel st s with
    | Except.error e => Except.error e
    | Except.ok st2 => neededbyLoop q cfg merge fuel rest st2

/-- The neededby command, whatpkgs.py lines 186-249: repository setup, then
the seed loop starting from empty accumulators. -/
def neededbyRun (env : DnfEnv) (useSystem : Bool) (q : Provider)
    (cfg : ResolverConfig) (merge : Bool) (fuel : Nat) (seeds : List SeedArg) :
    Except ExitReason (DependencyClosure × List AmbiguityRecord) :=
  match setupRepos env useSystem with
  | Except.error e => Except.error e
  | Except.ok _ => neededbyLoop q cfg merge fuel seeds ([], [])

/-- The debugprovides command, whatpkgs.py lines 434-455: repository setup,
arch-fallback capability lookup, exit 1 when no package provides the named
capability. -/
def debugprovidesRun (env : DnfEnv) (useSystem : Bool) (q : Provider)
    (cap : String) (primaryArch : String) (multiArch : Option String) :
    Except ExitReason (List PackageRecord) :=
  match setupRepos env useSystem with
  | Except.error e => Except.error e
  | Except.ok _ =>
    let required := debugLookup q cap primaryArch multiArch
    if required = [] then Except.error (ExitReason.packageNotFound cap)
    else Except.ok required

/-- State of a neededtoselfhost run: binary closure, source closure, and the
ambiguity list (whatpkgs.py lines 347-349). -/
structure SelfHostState where
  binary_pkgs : DependencyClosure
  source_pkgs : DependencyClosure
  ambiguities : List AmbiguityRecord
deriving DecidableEq

/-- Modelled from the spec: get_srpm_for_package, the source_of lookup of the
MetadataProvider contract (section 6; depchase.queries is not under src/).
Finds the source package record named by the binary record's source
reference. -/
def get_srpm_for_package (q : Provider) (pkg : PackageRecord) :
    Option PackageRecord :=
  (q.pkgs.filter (fun r =>
    r.id.name == pkg.sourceName && r.id.arch == "src")).head?

/-- Modelled from the spec: step 3 of SelfHostClosureEngine (section 4.4):
for every package of the binary closure, resolve its source package and
insert it into the source closure keyed by source name, deduplicating. -/
def projectSources (q : Provider) (binary : DependencyClosure)
    (source : DependencyClosure) : DependencyClosure :=
  binary.foldl (fun s e =>
    match get_srpm_for_package q e.record with
    | some src => if hasKey s src.id.name then s else insertEntry s src
    | none => s) source

/-- Modelled from the spec: recurse_self_host (section 4.4; depchase.process
is not under src/). Resolve the seed's source package, run the ClosureEngine
over its build-requirement list into the binary closure and ambiguity list,
then project every binary-closure package onto its source package. -/
def recurse_self_host (q : Provider) (cfg : ResolverConfig) (fuel : Nat)
    (pkg : PackageRecord) (st : SelfHostState) : SelfHostState :=
  match get_srpm_for_package q pkg with
  | none => st
  | some srpm =>
    let r := engine q cfg fuel (EngineCall.pending srpm srpm.requires)
      (st.binary_pkgs, st.ambiguities)
    ⟨r.1, projectSources q r.1 st.source_pkgs, r.2⟩

/-- One iteration of the neededtoselfhost seed loop, whatpkgs.py lines
350-377: skip a filtered seed, look the seed up, reset the accumulators
unless merging, traverse, then reconcile the ambiguity list against the
binary closure only. -/
def neededtoselfhostSeedStep (q : Provider) (cfg : ResolverConfig)
    (merge : Bool) (fuel : Nat) (st : SelfHostState) (s : SeedArg) :
    Except ExitReason SelfHostState :=
  if cfg.filters.contains s.name then Except.ok st
  else
    match get_pkg_by_name q s.name s.arch with
    | none => Except.error (ExitReason.packageNotFound s.name)
    | some pkg =>
      let st0 := if merge then st else ⟨[], [], []⟩
      let r := recurse_self_host q cfg fuel pkg st0
      Except.ok ⟨r.binary_pkgs, r.source_pkgs,
        reconcileAmbiguities r.binary_pkgs r.ambiguities⟩

/-- Stable insertion of a closure entry into a list sorted by discovery
index: the comparison python's sorted performs on the stored values. -/
def insertSortedByIdx (e : ClosureEntry) :
    List ClosureEntry → List ClosureEntry
  | [] => [e]
  | x :: xs =>
    if e.idx < x.idx then e :: x :: xs else x :: insertSortedByIdx e xs

/-- The sorted(dict, key=dict.get) ordering of closure entries by their
discovery-order index. -/
def sortByIdx (l : List ClosureEntry) : List ClosureEntry :=
  l.foldr insertSortedByIdx []

/-- Keys printed by the merge-mode loops of whatpkgs.py (lines 240-243,
405-411): every closure key in discovery order. -/
def printedKeysMerge (deps : DependencyClosure) : List String :=
  (sortByIdx deps).map ClosureEntry.key

/-- Keys printed by the non-merge loops of whatpkgs.py (lines 228-232,
385-396): closure keys in discovery order, skipping exactly the key equal to
the seed's binary package name. -/
def printedKeysNonMerge (deps : DependencyClosure) (seedName : String) :
    List String :=
  ((sortByIdx deps).map ClosureEntry.key).filter (fun k => !(k == seedName))

/-- What one listing pass prints: the key listing, then the ambiguity dump
exactly when the remaining ambiguity list is non-empty (whatpkgs.py lines
234-238, 245-249). -/
structure CommandOutput where
  listing : List String
  ambDump : Option (List AmbiguityRecord)
deriving DecidableEq

def renderOutput (listing : List String) (amb : List AmbiguityRecord) :
    CommandOutput :=
  ⟨listing, if amb.length > 0 then some amb else none⟩

/-- The click option set of the neededby command with its declared defaults,
whatpkgs.py lines 163-166: recommends on, merge off, full-name off,
pick-first off. -/
structure NeededbyOptions where
  recommends : Bool
  merge : Bool
  full_name : Bool
  pick_first : Bool
deriving DecidableEq

def neededbyDefaults : NeededbyOptions := ⟨true, false, false, false⟩

/-- The click option set of the neededtoselfhost command with its declared
defaults, whatpkgs.py lines 299-303: recommends off, merge off, full-name
off, sources on, pick-first off. -/
structure SelfHostOptions where
  recommends : Bool
  merge : Bool
  full_name : Bool
  sources : Bool
  pick_first : Bool
deriving DecidableEq

def neededtoselfhostDefaults : SelfHostOptions := ⟨false, false, false, true, false⟩

/-- Concrete fixture: a binary package requiring one capability. -/
def appPkg : PackageRecord :=
  ⟨⟨"app", 0, "1", "1", "x86_64"⟩, ["libfoo"], ["weakdep"], ["app"], "app-src"⟩

/-- Concrete fixture: first provider of the contested capability. -/
def foo1Pkg : PackageRecord :=
  ⟨⟨"libfoo-1", 0, "1", "1", "x86_64"⟩, [], [], ["libfoo"], "libfoo-1-src"⟩

/-- Concrete fixture: second provider of the contested capability. -/
def foo2Pkg : PackageRecord :=
  ⟨⟨"libfoo-2", 0, "1", "1", "x86_64"⟩, [], [], ["libfoo"], "libfoo-2-src"⟩

/-- Concrete fixture: the seed's source package with one build requirement. -/
def srcApp : PackageRecord :=
  ⟨⟨"app-src", 0, "1", "1", "src"⟩, ["libfoo"], [], [], "app-src"⟩

/-- Concrete fixture provider holding the packages above. -/
def P0 : Provider := ⟨[appPkg, foo1Pkg, foo2Pkg, srcApp]⟩

/-- Concrete fixture configuration: x86_64 primary, no multiarch, no hints,
no filters, pick-first off, recommends off. -/
def cfg0 : ResolverConfig := ⟨"x86_64", none, [], [], [], false, false⟩

/-- Concrete fixture seed naming the app package. -/
def seedApp : SeedArg := ⟨"app", none⟩

/-- Concrete fixture: an empty provider. -/
def Pempty : Provider := ⟨[]⟩

/-- Concrete fixture configuration whose filter set names the app seed. -/
def cfgF : ResolverConfig := ⟨"x86_64", none, [], ["app"], [], false, false⟩

/-- Concrete fixture: the closure produced by traversing the app seed. -/
def d0 : DependencyClosure := [⟨"app", appPkg, 0⟩]

/-- Concrete fixture: the ambiguity list produced by traversing the app
seed. -/
def a0 : List AmbiguityRecord := [⟨"libfoo", "app", [foo1Pkg.id, foo2Pkg.id]⟩]

/-- Concrete fixture: a source closure holding the seed's source package. -/
def srcClosure0 : DependencyClosure := [⟨"app-src", srcApp, 0⟩]

theorem hasKey_iff (c : DependencyClosure) (n : String) :
    hasKey c n = true ↔ n ∈ keysOf c := by
  simp only [hasKey, keysOf, List.any_eq_true, List.mem_map, beq_iff_eq]

/-- The engine only appends: its result state extends the input state. -/
theorem engine_prefix (q : Provider) (cfg : ResolverConfig) :
    ∀ (fuel : Nat) (c : EngineCall)
      (st : DependencyClosure × List AmbiguityRecord),
      ∃ t1 t2, engine q cfg fuel c st = (st.1 ++ t1, st.2 ++ t2) := by
  intro fuel
  induction fuel with
  | zero =>
    intro c st
    exact ⟨[], [], by simp [engine]⟩
  | succ n ih =>
    intro c st
    cases c with
    | visit pkg =>
      by_cases h : hasKey st.1 pkg.id.name
      · exact ⟨[], [], by simp [engine, h]⟩
      · obtain ⟨t1, t2, he⟩ :=
          ih (EngineCall.pending pkg (reqsOf cfg pkg)) (insertEntry st.1 pkg, st.2)
        refine ⟨⟨pkg.id.name, pkg, st.1.length⟩ :: t1, t2, ?_⟩
        simp only [engine, h, if_false, Bool.false_eq_true, ite_false]
        rw [he]
        simp [insertEntry, List.append_assoc]
    | pending pkg reqs =>
      cases reqs with
      | nil => exact ⟨[], [], by simp [engine]⟩
      | cons cap rest =>
        cases hr : resolveRequirement q cfg cap with
        | single c =>
          obtain ⟨t1, t2, h2⟩ := ih (EngineCall.visit c) st
          obtain ⟨t3, t4, h3⟩ :=
            ih (EngineCall.pending pkg rest) (st.1 ++ t1, st.2 ++ t2)
          refine ⟨t1 ++ t3, t2 ++ t4, ?_⟩
          simp only [engine, hr]
          rw [h2, h3]
          simp [List.append_assoc]
        | ambiguous cands =>
          obtain ⟨t3, t4, h3⟩ := ih (EngineCall.pending pkg rest)
            (st.1, st.2 ++ [⟨cap, pkg.id.name, cands.map PackageRecord.id⟩])
          refine ⟨t3, ⟨cap, pkg.id.name, cands.map PackageRecord.id⟩ :: t4, ?_⟩
          simp only [engine, hr]
          rw [h3]
          simp [List.append_assoc]
        | filteredOut =>
          obtain ⟨t3, t4, h3⟩ := ih (EngineCall.pending pkg rest) st
          refine ⟨t3, t4, ?_⟩
          simp only [engine, hr]
          exact h3
        | unresolved =>
          obtain ⟨t3, t4, h3⟩ := ih (EngineCall.pending pkg rest) st
          refine ⟨t3, t4, ?_⟩
          simp only [engine, hr]
          exact h3

/-- The engine preserves uniqueness of closure keys: it inserts a package
only after the cycle-guard check that its name is not yet a key. -/
theorem engine_keys_nodup (q : Provider) (cfg : ResolverConfig) :
    ∀ (fuel : Nat) (c : EngineCall)
      (st : DependencyClosure × List AmbiguityRecord),
      (keysOf st.1).Nodup → (keysOf (engine q cfg fuel c st).1).Nodup := by
  intro fuel
  induction fuel with
  | zero =>
    intro c st h
    simpa [engine] using h
  | succ n ih =>
    intro c st h
    cases c with
    | visit pkg =>
      by_cases hk : hasKey st.1 pkg.id.name
      · simpa [engine, hk] using h
      · have hnotin : pkg.id.name ∉ keysOf st.1 := by
          intro hmem
          exact hk ((hasKey_iff st.1 pkg.id.name).mpr hmem)
        have hins : keysOf (insertEntry st.1 pkg) = keysOf st.1 ++ [pkg.id.name] := by
          simp [insertEntry, keysOf]
        have h2 : (keysOf (insertEntry st.1 pkg)).Nodup := by
          rw [hins, List.nodup_append]
          refine ⟨h, List.nodup_singleton _, ?_⟩
          intro a ha hb
          rw [List.mem_singleton] at hb
          subst hb
          exact hnotin ha
        have h3 := ih (EngineCall.pending pkg (reqsOf cfg pkg))
          (insertEntry st.1 pkg, st.2) h2
        simpa [engine, hk] using h3
    | pending pkg reqs =>
      cases reqs with
      | nil => simpa [engine] using h
      | cons cap rest =>
        cases hr : resolveRequirement q cfg cap with
        | single c =>
          have h1 := ih (EngineCall.visit c) st h
          have h2 := ih (EngineCall.pending pkg rest)
            (engine q cfg n (EngineCall.visit c) st) h1
          simpa [engine, hr] using h2
        | ambiguous cands =>
          have h2 := ih (EngineCall.pending pkg rest)
            (st.1, st.2 ++ [⟨cap, pkg.id.name, cands.map PackageRecord.id⟩]) h
          simpa [engine, hr] using h2
        | filteredOut =>
          have h2 := ih (EngineCall.pending pkg rest) st h
          simpa [engine, hr] using h2
        | unresolved =>
          have h2 := ih (EngineCall.pending pkg rest) st h
          simpa [engine, hr] using h2

theorem insertSortedByIdx_perm (e : ClosureEntry) (l : List ClosureEntry) :
    (insertSortedByIdx e l).Perm (e :: l) := by
  induction l with
  | nil => simp [insertSortedByIdx]
  | cons x xs ih =>
    simp only [insertSortedByIdx]
    split
    · exact List.Perm.refl _
    · exact (ih.cons x).trans (List.Perm.swap e x xs)

theorem sortByIdx_perm (l : List ClosureEntry) : (sortByIdx l).Perm l := by
  induction l with
  | nil => simp [sortByIdx]
  | cons x xs ih =>
    have hs : sortByIdx (x :: xs) = insertSortedByIdx x (sortByIdx xs) := rfl
    rw [hs]
    exact (insertSortedByIdx_perm x (sortByIdx xs)).trans (ih.cons x)

theorem insertSortedByIdx_pairwise (e : ClosureEntry) (l : List ClosureEntry)
    (h : List.Pairwise (fun a b => a.idx ≤ b.idx) l) :
    List.Pairwise (fun a b => a.idx ≤ b.idx) (insertSortedByIdx e l) := by
  induction l with
  | nil => simp [insertSortedByIdx]
  | cons x xs ih =>
    rcases List.pairwise_cons.mp h with ⟨hx, hxs⟩
    simp only [insertSortedByIdx]
    split
    · next hlt =>
      refine List.pairwise_cons.mpr ⟨?_, h⟩
      intro y hy
      rcases List.mem_cons.mp hy with hy1 | hy2
      · subst hy1
        exact Nat.le_of_lt hlt
      · exact Nat.le_trans (Nat.le_of_lt hlt) (hx y hy2)
    · next hnlt =>
      refine List.pairwise_cons.mpr ⟨?_, ih hxs⟩
      intro y hy
      rcases List.mem_cons.mp ((insertSortedByIdx_perm e xs).mem_iff.mp hy) with hy1 | hy2
      · subst hy1
        exact Nat.le_of_not_lt hnlt
      · exact hx y hy2

theorem sortByIdx_pairwise (l : List ClosureEntry) :
    List.Pairwise (fun a b => a.idx ≤ b.idx) (sortByIdx l) := by
  induction l with
  | nil => simp [sortByIdx]
  | cons x xs ih => exact insertSortedByIdx_pairwise x (sortByIdx xs) ih

theorem mem_printedKeysMerge (deps : DependencyClosure) (k : String) :
    k ∈ printedKeysMerge deps ↔ k ∈ keysOf deps :=
  ((sortByIdx_perm deps).map ClosureEntry.key).mem_iff

theorem mem_printedKeysNonMerge (deps : DependencyClosure)
    (seedName k : String) :
    k ∈ printedKeysNonMerge deps seedName ↔
      (k ∈ keysOf deps ∧ k ≠ seedName) := by
  have hperm : k ∈ (sortByIdx deps).map ClosureEntry.key ↔ k ∈ keysOf deps :=
    ((sortByIdx_perm deps).map ClosureEntry.key).mem_iff
  simp only [printedKeysNonMerge, List.mem_filter, Bool.not_eq_true',
    beq_eq_false_iff_ne, hperm]

/-- Claim C1: for every seed package, after its dependency traversal
completes, the ambiguity list is replaced by a pure filtering pass over the
previous list that keeps exactly the records none of whose candidate
PackageIds is already a key of the dependency closure (a record is dropped
iff at least one candidate is already in the closure), and the pass leaves
every entry of the closure itself untouched. -/
theorem ambiguity_filter_after_traversal (q : Provider) (cfg : ResolverConfig)
    (merge : Bool) (fuel : Nat)
    (st : DependencyClosure × List AmbiguityRecord) (s : SeedArg)
    (pkg : PackageRecord) (d : DependencyClosure) (a : List AmbiguityRecord)
    (hf : cfg.filters.contains s.name = false)
    (hp : get_pkg_by_name q s.name s.arch = some pkg)
    (ht : recurse_package_deps q cfg fuel pkg
      (if merge then st else ([], [])) = (d, a)) :
    neededbySeedStep q cfg merge fuel st s =
      Except.ok (d, reconcileAmbiguities d a) ∧
    (∀ x, x ∈ reconcileAmbiguities d a ↔
      (x ∈ a ∧ ∀ cid ∈ x.candidates, hasKey d cid.name = false)) := by
  have hf' : s.name ∉ cfg.filters := by simpa using hf
  constructor
  · simp [neededbySeedStep, hf', hp, ht]
  · intro x
    simp [reconcileAmbiguities, List.mem_filter, resolve_ambiguity,
      List.any_eq_false]

theorem ambiguity_filter_after_traversal_witness :
    neededbySeedStep P0 cfg0 false 6 ([], []) seedApp =
      Except.ok (d0, reconcileAmbiguities d0 a0) :=
  (ambiguity_filter_after_traversal P0 cfg0 false 6 ([], []) seedApp appPkg
    d0 a0 (by decide) (by decide) (by decide)).1

theorem debugprovides_arch_fallback_witness :
    debugLookup P0 "libfoo" "x86_64" (some "i686") =
      provAt P0 "libfoo" "x86_64" :=
  (debugprovides_arch_fallback P0 "libfoo" "x86_64" (some "i686")).1
    (by decide)

/-- Claim C3: two runs of the closure computation over identical provider
state with identical hint, filter, whatreqs, pick-first and recommends
inputs produce identical closure key sets and identical remaining ambiguity
lists; every operation is a deterministic in-memory lookup with no transient
or retried failure mode. -/
theorem closure_run_deterministic (env : DnfEnv) (useSystem : Bool)
    (q : Provider) (cfg : ResolverConfig) (merge : Bool) (fuel : Nat)
    (seeds : List SeedArg)
    (st1 st2 : DependencyClosure × List AmbiguityRecord)
    (h1 : neededbyRun env useSystem q cfg merge fuel seeds = Except.ok st1)
    (h2 : neededbyRun env useSystem q cfg merge fuel seeds = Except.ok st2) :
    keysOf st1.1 = keysOf st2.1 ∧ st1.2 = st2.2 := by
  rw [h1] at h2
  injection h2 with h
  subst h
  exact ⟨rfl, rfl⟩

theorem closure_run_deterministic_witness :
    keysOf (d0, a0).1 = keysOf (d0, a0).1 ∧ (d0, a0).2 = (d0, a0).2 :=
  closure_run_deterministic ⟨true⟩ true P0 cfg0 false 6 [seedApp]
    (d0, a0) (d0, a0) rfl rfl

/-- Claim C4: the printed output lists the closure's package identifiers
deduplicated and ordered by the discovery-order index recorded at insertion,
the ambiguity dump follows the listing exactly when the remaining ambiguity
list is non-empty, and the engine keeps closure keys unique so the listing
is deduplicated by construction. -/
theorem output_sorted_dedup_and_dump (q : Provider) (cfg : ResolverConfig)
    (deps : DependencyClosure) (amb : List AmbiguityRecord)
    (hnd : (keysOf deps).Nodup) :
    (printedKeysMerge deps).Nodup ∧
    (printedKeysMerge deps).Perm (keysOf deps) ∧
    List.Pairwise (fun a b => a.idx ≤ b.idx) (sortByIdx deps) ∧
    ((renderOutput (printedKeysMerge deps) amb).ambDump ≠ none ↔ amb ≠ []) ∧
    (∀ (fuel : Nat) (c : EngineCall)
       (st : DependencyClosure × List AmbiguityRecord),
      (keysOf st.1).Nodup → (keysOf (engine q cfg fuel c st).1).Nodup) := by
  refine ⟨?_, ((sortByIdx_perm deps).map ClosureEntry.key),
    sortByIdx_pairwise deps, ?_, engine_keys_nodup q cfg⟩
  · exact ((sortByIdx_perm deps).map ClosureEntry.key).nodup_iff.mpr hnd
  · cases amb with
    | nil => simp [renderOutput]
    | cons x xs => simp [renderOutput]

theorem output_sorted_dedup_and_dump_witness :
    (renderOutput (printedKeysMerge d0) a0).ambDump ≠ none ↔ a0 ≠ [] :=
  (output_sorted_dedup_and_dump P0 cfg0 d0 a0 (by decide)).2.2.2.1

/-- Claim C5 counterexample: with a DNF library lacking the 2.x repo-id
attribute, the debugprovides command exits with code 1 during static
repository setup even though the caller-named capability is resolvable in
the provider, so a missing caller-named package is not the only exit-1
condition. -/
theorem exit_code_counterexample :
    debugprovidesRun ⟨false⟩ false P0 "libfoo" "x86_64" none =
      Except.error ExitReason.dnfTooOld ∧
    debugLookup P0 "libfoo" "x86_64" none ≠ [] := by
  constructor
  · rfl
  · decide

/-- Claim C5 (amended): the process exits with code 1 exactly when a
caller-named capability cannot be found in the provider or when static
repository setup fails because the DNF library lacks the 2.x repo-id
attribute; in the seed loop every exit is a package-not-found for some
caller-named seed, so no third condition produces exit code 1. -/
theorem exit_code_characterization (env : DnfEnv) (useSystem : Bool)
    (q : Provider) (cap primaryArch : String) (multiArch : Option String) :
    (∀ e, debugprovidesRun env useSystem q cap primaryArch multiArch =
        Except.error e ↔
      ((useSystem = false ∧ env.supportsRepoId = false ∧
          e = ExitReason.dnfTooOld) ∨
       ((useSystem = true ∨ env.supportsRepoId = true) ∧
          debugLookup q cap primaryArch multiArch = [] ∧
          e = ExitReason.packageNotFound cap))) ∧
    (∀ (cfg : ResolverConfig) (merge : Bool) (fuel : Nat)
       (seeds : List SeedArg)
       (st : DependencyClosure × List AmbiguityRecord) (e : ExitReason),
      neededbyLoop q cfg merge fuel seeds st = Except.error e →
      ∃ n, e = ExitReason.packageNotFound n) := by
  constructor
  · intro e
    obtain ⟨b⟩ := env
    cases useSystem <;> cases b <;>
      by_cases hl : debugLookup q cap primaryArch multiArch = [] <;>
      simp [debugprovidesRun, setupRepos, setup_static_repo, hl] <;>
      tauto
  · intro cfg merge fuel seeds
    induction seeds with
    | nil =>
      intro st e h
      simp [neededbyLoop] at h
    | cons s rest ih =>
      intro st e h
      simp only [neededbyLoop] at h
      by_cases hfil : s.name ∈ cfg.filters
      · have hstep : neededbySeedStep q cfg merge fuel st s = Except.ok st := by
          simp [neededbySeedStep, hfil]
        rw [hstep] at h
        exact ih st e h
      · cases hl : get_pkg_by_name q s.name s.arch with
        | none =>
          have hstep : neededbySeedStep q cfg merge fuel st s =
              Except.error (ExitReason.packageNotFound s.name) := by
            simp [neededbySeedStep, hfil, hl]
          rw [hstep] at h
          simp only [Except.error.injEq] at h
          exact ⟨s.name, h.symm⟩
        | some pkg =>
          have hstep : neededbySeedStep q cfg merge fuel st s =
              Except.ok
                ((recurse_package_deps q cfg fuel pkg
                    (if merge then st else ([], []))).1,
                 reconcileAmbiguities
                   (recurse_package_deps q cfg fuel pkg
                     (if merge then st else ([], []))).1
                   (recurse_package_deps q cfg fuel pkg
                     (if merge then st else ([], []))).2) := by
            simp [neededbySeedStep, hfil, hl]
          rw [hstep] at h
          exact ih _ e h

theorem exit_code_characterization_witness :
    ∃ n, ExitReason.packageNotFound "missing" =
      ExitReason.packageNotFound n :=
  (exit_code_characterization ⟨true⟩ true P0 "libfoo" "x86_64" none).2
    cfg0 false 6 [⟨"missing", none⟩] ([], [])
    (ExitReason.packageNotFound "missing") rfl

/-- Claim C6: with merge requested, the dependency closure and ambiguity
list persist and accumulate across all caller-named seed packages as one
logical accumulation; without merge, both are reset to empty before each
seed's traversal; and a package once inserted into the closure is never
removed by the traversal. -/
theorem merge_accumulation_and_monotonicity (q : Provider)
    (cfg : ResolverConfig) (fuel : Nat) (s : SeedArg) (pkg : PackageRecord)
    (hf : cfg.filters.contains s.name = false)
    (hp : get_pkg_by_name q s.name s.arch = some pkg) :
    (∀ st : DependencyClosure × List AmbiguityRecord, ∃ t1 t2,
      neededbySeedStep q cfg true fuel st s =
        Except.ok (st.1 ++ t1,
          reconcileAmbiguities (st.1 ++ t1) (st.2 ++ t2))) ∧
    (∀ st st' : DependencyClosure × List AmbiguityRecord,
      neededbySeedStep q cfg false fuel st s =
        neededbySeedStep q cfg false fuel st' s) ∧
    (∀ (f : Nat) (p : PackageRecord)
       (st : DependencyClosure × List AmbiguityRecord) (e : ClosureEntry),
      e ∈ st.1 → e ∈ (recurse_package_deps q cfg f p st).1) := by
  have hf' : s.name ∉ cfg.filters := by simpa using hf
  refine ⟨?_, ?_, ?_⟩
  · intro st
    obtain ⟨t1, t2, h⟩ := engine_prefix q cfg fuel (EngineCall.visit pkg) st
    refine ⟨t1, t2, ?_⟩
    simp [neededbySeedStep, hf', hp, recurse_package_deps, h]
  · intro st st'
    simp [neededbySeedStep, hf', hp]
  · intro f p st e he
    obtain ⟨t1, t2, h⟩ := engine_prefix q cfg f (EngineCall.visit p) st
    unfold recurse_package_deps
    rw [h]
    exact List.mem_append_left t1 he

theorem merge_accumulation_witness :
    neededbySeedStep P0 cfg0 false 6 (d0, a0) seedApp =
      neededbySeedStep P0 cfg0 false 6 ([], []) seedApp :=
  (merge_accumulation_and_monotonicity P0 cfg0 6 seedApp appPkg
    (by decide) (by decide)).2.1 (d0, a0) ([], [])

/-- Claim C7: in the self-host computation, ambiguity reconciliation is
applied only against the binary closure: the seed step returns the
traversal's binary and source closures untouched with only the ambiguity
list filtered through the binary closure, and the traversal's binary closure
and ambiguity list do not depend on the incoming source closure at all. -/
theorem selfhost_reconciliation_frame (q : Provider) (cfg : ResolverConfig)
    (fuel : Nat) (s : SeedArg) (pkg : PackageRecord)
    (hf : cfg.filters.contains s.name = false)
    (hp : get_pkg_by_name q s.name s.arch = some pkg) :
    (∀ st : SelfHostState,
      neededtoselfhostSeedStep q cfg true fuel st s =
        Except.ok
          ⟨(recurse_self_host q cfg fuel pkg st).binary_pkgs,
           (recurse_self_host q cfg fuel pkg st).source_pkgs,
           reconcileAmbiguities
             (recurse_self_host q cfg fuel pkg st).binary_pkgs
             (recurse_self_host q cfg fuel pkg st).ambiguities⟩) ∧
    (∀ (b : DependencyClosure) (a : List AmbiguityRecord)
       (s1 s2 : DependencyClosure),
      (recurse_self_host q cfg fuel pkg ⟨b, s1, a⟩).binary_pkgs =
        (recurse_self_host q cfg fuel pkg ⟨b, s2, a⟩).binary_pkgs ∧
      (recurse_self_host q cfg fuel pkg ⟨b, s1, a⟩).ambiguities =
        (recurse_self_host q cfg fuel pkg ⟨b, s2, a⟩).ambiguities) := by
  have hf' : s.name ∉ cfg.filters := by simpa using hf
  constructor
  · intro st
    simp [neededtoselfhostSeedStep, hf', hp]
  · intro b a s1 s2
    cases hsr : get_srpm_for_package q pkg with
    | none => simp [recurse_self_host, hsr]
    | some srpm => simp [recurse_self_host, hsr]

theorem selfhost_reconciliation_witness :
    (recurse_self_host P0 cfg0 6 appPkg ⟨[], d0, []⟩).binary_pkgs =
      (recurse_self_host P0 cfg0 6 appPkg ⟨[], [], []⟩).binary_pkgs ∧
    (recurse_self_host P0 cfg0 6 appPkg ⟨[], d0, []⟩).ambiguities =
      (recurse_self_host P0 cfg0 6 appPkg ⟨[], [], []⟩).ambiguities :=
  (selfhost_reconciliation_frame P0 cfg0 6 seedApp appPkg (by decide)
    (by decide)).2 [] [] d0 []

/-- Claim C8: the recommends flag of neededtoselfhost defaults to false
while the neededby command defaults to including recommends, and the
traversal consults weak requirements exactly when the flag is on, so weak
build dependencies enter the self-host closure only on explicit request. -/
theorem recommends_defaults (cfg : ResolverConfig) (pkg : PackageRecord) :
    neededtoselfhostDefaults.recommends = false ∧
    neededbyDefaults.recommends = true ∧
    (cfg.recommends = false → reqsOf cfg pkg = pkg.requires) ∧
    (cfg.recommends = true →
      reqsOf cfg pkg = pkg.requires ++ pkg.recommends) := by
  refine ⟨rfl, rfl, ?_, ?_⟩ <;> intro h <;> simp [reqsOf, h]

theorem recommends_defaults_witness :
    reqsOf cfg0 appPkg = appPkg.requires :=
  (recommends_defaults cfg0 appPkg).2.2.1 rfl

/-- Claim C9: a caller-named seed whose name is in the filter set is skipped
entirely: for every provider state (in particular ones not containing the
seed at all, so no lookup can matter) the seed step returns the state
unchanged with no error, the loop continues with the remaining seeds
unaffected, and the same holds for the self-host seed step. -/
theorem filtered_seed_skipped (q : Provider) (cfg : ResolverConfig)
    (merge : Bool) (fuel : Nat) (s : SeedArg)
    (h : cfg.filters.contains s.name = true) :
    (∀ st, neededbySeedStep q cfg merge fuel st s = Except.ok st) ∧
    (∀ st rest, neededbyLoop q cfg merge fuel (s :: rest) st =
      neededbyLoop q cfg merge fuel rest st) ∧
    (∀ st2 : SelfHostState,
      neededtoselfhostSeedStep q cfg merge fuel st2 s = Except.ok st2) := by
  have h' : s.name ∈ cfg.filters := by simpa using h
  refine ⟨fun st => by simp [neededbySeedStep, h'], fun st rest => ?_,
    fun st2 => by simp [neededtoselfhostSeedStep, h']⟩
  simp [neededbyLoop, neededbySeedStep, h']

theorem filtered_seed_skipped_witness :
    neededbySeedStep Pempty cfgF false 6 ([], []) seedApp =
      Except.ok ([], []) :=
  (filtered_seed_skipped Pempty cfgF false 6 seedApp (by decide)).1 ([], [])

/-- Claim C10: the non-merge listing omits exactly the key equal to the
seed's binary package name, so in the self-host source listing the seed's
own source package is printed whenever its source name differs from the
binary name, while the merge-mode listing omits no key. -/
theorem print_skip_exactly_seed (deps : DependencyClosure)
    (seedName : String) :
    (∀ k, k ∈ printedKeysNonMerge deps seedName ↔
      (k ∈ keysOf deps ∧ k ≠ seedName)) ∧
    (∀ k, k ∈ printedKeysMerge deps ↔ k ∈ keysOf deps) ∧
    (∀ (srcs : DependencyClosure) (srcName : String),
      srcName ∈ keysOf srcs → srcName ≠ seedName →
      srcName ∈ printedKeysNonMerge srcs seedName) := by
  refine ⟨fun k => mem_printedKeysNonMerge deps seedName k,
    fun k => mem_printedKeysMerge deps k, ?_⟩
  intro srcs srcName hm hne
  exact (mem_printedKeysNonMerge srcs seedName srcName).mpr ⟨hm, hne⟩

theorem print_skip_exactly_seed_witness :
    "app-src" ∈ printedKeysNonMerge srcClosure0 "app" :=
  (print_skip_exactly_seed srcClosure0 "app").2.2 srcClosure0 "app-src"
    (by decide) (by decide)
